import Mathlib

/-! Spring engine: unit / weapon-projectile core.

A shallow embedding of the inline code of

* `rts/Sim/Projectiles/WeaponProjectiles/WeaponProjectile.h`
* `rts/Sim/Units/Unit.h`
* `rts/Lua/LuaAtlasTextures.h`

The data structures take the scalar type `α` of their `float` members as a
parameter.  Where the header computes with floats (`TraveledRange`) `α` is
`F32`, IEEE 754 binary32 with every operation rounded to nearest, ties to
even; where it only stores and returns them `α` is arbitrary.  The damage
model, which is taken from the specification, computes in exact arithmetic.
Pointers are embedded as `Option` of an identifier type, `nullptr` being
`none`.
-/

namespace Spring

/-! ## float -/

/-- The values of a C++ `float`, IEEE 754 binary32: not-a-number, the two
infinities, and the finite values `m * 2 ^ e`.  A binary32 number has
`|m| < 2 ^ 24` and `-149 ≤ e ≤ 104` (`isBinary32`); the subnormal numbers are
those of exponent `-149`.  The sign of a zero is not kept: none of `-`, `*`,
`+` and `>` tells the two zeros apart. -/
inductive F32 where
  | nan
  | inf (negative : Bool)
  | fin (m : Int) (e : Int)
deriving DecidableEq, Repr

namespace F32

/-- Whether the value is one a binary32 variable can hold. -/
def isBinary32 : F32 → Bool
  | fin m e => decide (m.natAbs < 2 ^ 24) && decide (-149 ≤ e) && decide (e ≤ 104)
  | _ => true

/-- Whether the value is finite. -/
def isFinite : F32 → Bool
  | fin _ _ => true
  | _ => false

/-- The rational number a finite value stands for (0 for the others). -/
def toRat : F32 → ℚ
  | fin m e => (m : ℚ) * (2 : ℚ) ^ e
  | _ => 0

/-- The number of binary digits of `n`, by halving at most `fuel` times. -/
def bitLengthAux : Nat → Nat → Nat
  | 0, _ => 0
  | fuel + 1, n => if n = 0 then 0 else bitLengthAux fuel (n / 2) + 1

/-- The number of binary digits of `n`: 0 for 0, and `k` when
`2 ^ (k - 1) ≤ n < 2 ^ k`. -/
def bitLength (n : Nat) : Nat := bitLengthAux n n

/-- The binary32 value nearest to the exact result `m * 2 ^ e` of an
operation, ties to the even significand: the significand is cut to 24 bits,
or to those above the exponent `-149` for a subnormal result, and a result
beyond the largest finite number overflows to an infinity. -/
def roundNearestEven (m e : Int) : F32 :=
  if m = 0 then fin 0 0
  else
    let n := m.natAbs
    let e1 : Int := max (e + (bitLength n : Int) - 24) (-149)
    let q : Nat :=
      if e1 ≤ e then n * 2 ^ (e - e1).toNat
      else
        let k := (e1 - e).toNat
        let d := n / 2 ^ k
        let r := n % 2 ^ k
        if 2 * r > 2 ^ k ∨ (2 * r = 2 ^ k ∧ d % 2 = 1) then d + 1 else d
    let q2 : Nat := if q ≥ 2 ^ 24 then q / 2 else q
    let e2 : Int := if q ≥ 2 ^ 24 then e1 + 1 else e1
    if e2 > 104 then inf (decide (m < 0))
    else if m < 0 then fin (-(q2 : Int)) e2
    else fin (q2 : Int) e2

/-- The `float` sum `a + b`: the exact sum, rounded. -/
def add : F32 → F32 → F32
  | fin m1 e1, fin m2 e2 =>
    roundNearestEven
      (m1 * 2 ^ (e1 - min e1 e2).toNat + m2 * 2 ^ (e2 - min e1 e2).toNat) (min e1 e2)
  | inf s, inf t => if s = t then inf s else nan
  | inf s, fin _ _ => inf s
  | fin _ _, inf t => inf t
  | _, _ => nan

/-- The `float` difference `a - b`: the exact difference, rounded. -/
def sub : F32 → F32 → F32
  | fin m1 e1, fin m2 e2 =>
    roundNearestEven
      (m1 * 2 ^ (e1 - min e1 e2).toNat - m2 * 2 ^ (e2 - min e1 e2).toNat) (min e1 e2)
  | inf s, inf t => if s = t then nan else inf s
  | inf s, fin _ _ => inf s
  | fin _ _, inf t => inf (!t)
  | _, _ => nan

/-- The `float` product `a * b`: the exact product, rounded. -/
def mul : F32 → F32 → F32
  | fin m1 e1, fin m2 e2 => roundNearestEven (m1 * m2) (e1 + e2)
  | inf s, inf t => inf (xor s t)
  | inf s, fin m _ => if m = 0 then nan else inf (xor s (decide (m < 0)))
  | fin m _, inf t => if m = 0 then nan else inf (xor (decide (m < 0)) t)
  | _, _ => nan

/-- The `float` comparison `a < b`, false when either side is not a number. -/
def lt : F32 → F32 → Bool
  | fin m1 e1, fin m2 e2 =>
    decide (m1 * 2 ^ (e1 - min e1 e2).toNat < m2 * 2 ^ (e2 - min e1 e2).toNat)
  | inf s, inf t => s && !t
  | inf s, fin _ _ => s
  | fin _ _, inf t => !t
  | _, _ => false

/-- The `float` comparison `a > b`. -/
def gt (a b : F32) : Bool := lt b a

instance : Add F32 := ⟨add⟩
instance : Sub F32 := ⟨sub⟩
instance : Mul F32 := ⟨mul⟩

end F32

/-! ## float3 -/

/-- Modelled from the spec: the three-component vector `float3` of
`System/float3.h`, which is not among the sources. -/
structure float3 (α : Type) where
  x : α
  y : α
  z : α
deriving DecidableEq, Repr

namespace float3

variable {α : Type}

/-- Modelled from the spec: `float3::operator-`, the component-wise
difference (`System/float3.h` is not among the sources). -/
def sub [Sub α] (a b : float3 α) : float3 α :=
  ⟨a.x - b.x, a.y - b.y, a.z - b.z⟩

/-- Modelled from the spec: `float3::SqLength`, the "squared length" of a
vector (`System/float3.h` is not among the sources). -/
def SqLength [Add α] [Mul α] (a : float3 α) : α :=
  a.x * a.x + a.y * a.y + a.z * a.z

/-- The vector of the images of the components. -/
def map {β : Type} (f : α → β) (a : float3 α) : float3 β :=
  ⟨f a.x, f a.y, f a.z⟩

end float3

/-! ## CWeaponProjectile -/

/-- The data members of `CWeaponProjectile` (WeaponProjectile.h:81-109)
together with the three members of its base `CProjectile` that the inline
code of the header reads: `pos`, `myrange` and `animProgress`.

* `ι` identifies world objects (`CWorldObject*`, `nullptr` is `none`);
* `ω` stands for `WeaponDef` and `δ` for `DynDamageArray`, the pointees of
  `weaponDef` and `damages`. -/
structure CWeaponProjectile (α ι ω δ : Type) where
  /-- `CWorldObject::pos`, inherited. -/
  pos : float3 α
  /-- `CProjectile::myrange`, inherited. -/
  myrange : α
  /-- `CProjectile::animProgress`, inherited. -/
  animProgress : α
  damages : Option δ
  weaponDef : Option ω
  target : Option ι
  weaponNum : Nat
  ttl : Int
  bounces : Int
  targeted : Bool
  bounced : Bool
  startPos : float3 α
  targetPos : float3 α
  bounceHitPos : float3 α
  bounceParams : float3 α
  /-- `std::array<float, 3> extraAnimProgress`. -/
  extraAnimProgress : Fin 3 → α

namespace CWeaponProjectile

variable {α ι ω δ : Type}

/-- WeaponProjectile.h:79
`bool TraveledRange() const { return ((pos - startPos).SqLength() > (myrange * myrange)); }`
in `float` arithmetic: each difference, product and sum is rounded to
binary32 before it is used (no fused multiply-add, no wider intermediate
precision), the three squares being summed from left to right. -/
def TraveledRange (p : CWeaponProjectile F32 ι ω δ) : Bool :=
  F32.gt (float3.sub p.pos p.startPos).SqLength (p.myrange * p.myrange)

/-- The squared distance between `pos` and `startPos` in exact arithmetic, as
a rational number; to be compared with what `TraveledRange` computes. -/
def exactSqDistance (p : CWeaponProjectile F32 ι ω δ) : ℚ :=
  (float3.sub (p.pos.map F32.toRat) (p.startPos.map F32.toRat)).SqLength

/-- Whether `pos`, `startPos` and `myrange` hold finite binary32 numbers. -/
def rangeInputsFinite (p : CWeaponProjectile F32 ι ω δ) : Bool :=
  [p.pos.x, p.pos.y, p.pos.z, p.startPos.x, p.startPos.y, p.startPos.z, p.myrange].all
    (fun v => v.isFinite && v.isBinary32)

/-- WeaponProjectile.h:40
`virtual int ShieldRepulse(const float3& shieldPos, float shieldForce, float shieldMaxSpeed) { return 0; }`
The method is not `const`, so the embedding returns the result together with
the projectile after the call. -/
def ShieldRepulse (p : CWeaponProjectile α ι ω δ) (_shieldPos : float3 α)
    (_shieldForce : α) (_shieldMaxSpeed : α) : Int × CWeaponProjectile α ι ω δ :=
  (0, p)

/-- The read `extraAnimProgress[i]` of the 3-element array, `none` when the
index is outside it. -/
def extraAnimProgressAt (p : CWeaponProjectile α ι ω δ) (i : Nat) : Option α :=
  if h : i < 3 then some (p.extraAnimProgress ⟨i, h⟩) else none

/-- WeaponProjectile.h:112-141, the five explicit specialisations of
`template <uint32_t texIdx> void AddWeaponEffectsQuad(tl, tr, br, bl) const`.

`CProjectile::AddEffectsQuadImpl` and `WeaponDef::visuals.animParams` are not
among the sources and are parameters: `animParams wd` lists the entries of
`wd->visuals.animParams`, and `AddEffectsQuadImpl tl tr br bl a` is what the
call does, `a` being `none` for the four-argument overload and the two extra
arguments for the six-argument one.  The result is `none` when
`assert(weaponDef)` fails, when an array is read outside its bounds, and for a
`texIdx` that has no specialisation (the template has no generic body). -/
def AddWeaponEffectsQuad {P Q R : Type} (animParams : ω → List P)
    (AddEffectsQuadImpl : Q → Q → Q → Q → Option (P × α) → R)
    (texIdx : Nat) (p : CWeaponProjectile α ι ω δ) (tl tr br bl : Q) : Option R :=
  match texIdx with
  | 0 =>
    match p.weaponDef with
    | none => none
    | some _ => some (AddEffectsQuadImpl tl tr br bl none)
  | 1 =>
    match p.weaponDef with
    | none => none
    | some wd =>
      match (animParams wd)[0]? with
      | none => none
      | some a => some (AddEffectsQuadImpl tl tr br bl (some (a, p.animProgress)))
  | 2 =>
    match p.weaponDef with
    | none => none
    | some wd =>
      match (animParams wd)[1]?, p.extraAnimProgressAt 0 with
      | some a, some e => some (AddEffectsQuadImpl tl tr br bl (some (a, e)))
      | _, _ => none
  | 3 =>
    match p.weaponDef with
    | none => none
    | some wd =>
      match (animParams wd)[2]?, p.extraAnimProgressAt 1 with
      | some a, some e => some (AddEffectsQuadImpl tl tr br bl (some (a, e)))
      | _, _ => none
  | 4 =>
    match p.weaponDef with
    | none => none
    | some wd =>
      match (animParams wd)[3]?, p.extraAnimProgressAt 2 with
      | some a, some e => some (AddEffectsQuadImpl tl tr br bl (some (a, e)))
      | _, _ => none
  | _ => none

/-- Where the progress argument of an effects quad is read from. -/
inductive AnimProgressSource where
  | animProgress
  | extraAnimProgress (i : Nat)
deriving DecidableEq, Repr

/-- The lookup table of the design notes, in the words of the specification:
index 0 has no animation parameters, index 1 has `(animParams[0], animProgress)`
and an index `k` of 2..4 has `(animParams[k-1], extraAnimProgress[k-2])`. -/
def effectsQuadTable (k : Nat) : Option (Nat × AnimProgressSource) :=
  if k = 0 then none
  else if k = 1 then some (0, AnimProgressSource.animProgress)
  else some (k - 1, AnimProgressSource.extraAnimProgress (k - 2))

/-- The read of a progress source. -/
def readProgress (p : CWeaponProjectile α ι ω δ) : AnimProgressSource → Option α
  | AnimProgressSource.animProgress => some p.animProgress
  | AnimProgressSource.extraAnimProgress i => p.extraAnimProgressAt i

/-- The effects quad resolved through `effectsQuadTable` at call time, as the
design notes describe it; to be compared with `AddWeaponEffectsQuad`. -/
def AddWeaponEffectsQuadByTable {P Q R : Type} (animParams : ω → List P)
    (AddEffectsQuadImpl : Q → Q → Q → Q → Option (P × α) → R)
    (texIdx : Nat) (p : CWeaponProjectile α ι ω δ) (tl tr br bl : Q) : Option R :=
  if texIdx ≤ 4 then
    match p.weaponDef with
    | none => none
    | some wd =>
      match effectsQuadTable texIdx with
      | none => some (AddEffectsQuadImpl tl tr br bl none)
      | some (i, src) =>
        match (animParams wd)[i]?, p.readProgress src with
        | some a, some e => some (AddEffectsQuadImpl tl tr br bl (some (a, e)))
        | _, _ => none
  else none

/-- WeaponProjectile.h:55-60
```
void SetTargetObject(CWorldObject* newTarget) {
    if (newTarget != nullptr)
        targetPos = newTarget->pos;

    target = newTarget;
}
```
`CWorldObject` is not among the sources: `posOf t` is the `pos` member of the
world object `t` points to when the call is made. -/
def SetTargetObject (p : CWeaponProjectile α ι ω δ) (posOf : ι → float3 α)
    (newTarget : Option ι) : CWeaponProjectile α ι ω δ :=
  let p1 :=
    match newTarget with
    | some t => { p with targetPos := posOf t }
    | none => p
  { p1 with target := newTarget }

/-- WeaponProjectile.h:62-63, both overloads:
`CWorldObject* GetTargetObject() { return target; }` -/
def GetTargetObject (p : CWeaponProjectile α ι ω δ) : Option ι :=
  p.target

end CWeaponProjectile

/-! ## Projectile collision (not among the sources) -/

/-- Modelled from the spec: the states of the projectile lifecycle,
`Flight → (Bounce → Flight)* → Collision → Exploding → Destroyed` (§4.5);
WeaponProjectile.cpp and Projectile.h are not among the sources. -/
inductive ProjectilePhase where
  | Flight
  | Bounce
  | Collision
  | Exploding
  | Destroyed
deriving DecidableEq, Repr

/-- Modelled from the spec: a projectile "has begun exploding" from the state
`Exploding` on (§4.5). -/
def ProjectilePhase.begunExploding : ProjectilePhase → Bool
  | ProjectilePhase.Exploding => true
  | ProjectilePhase.Destroyed => true
  | _ => false

/-- Modelled from the spec: what a collision is with, one constructor for each
of `Collision()`, `Collision(CFeature*)` and `Collision(CUnit*)`
(WeaponProjectile.h:29-31 declares them; their bodies are not among the
sources). -/
inductive CollisionTarget (ι : Type) where
  | noTarget
  | feature (f : ι)
  | unit (u : ι)
deriving DecidableEq, Repr

/-- Modelled from the spec: a weapon projectile in its lifecycle, with the
effects it has had on the world: the damage applications handed to the damage
processor (struck unit, damage array, impact direction) and the effect spawns
(impact position). -/
structure ProjectileSim (α ι ω δ : Type) where
  proj : CWeaponProjectile α ι ω δ
  phase : ProjectilePhase
  damageApplied : List (ι × Option δ × float3 α)
  effectsSpawned : List (float3 α)

namespace ProjectileSim

variable {α ι ω δ : Type}

/-- Modelled from the spec: `Explode(hitUnit, hitFeature, impactPos, impactDir)`
"invokes DamageProcessor against `hitUnit` if non-null (using the projectile's
damage array and `impactDir` for flanking computation), spawns visual/CEG side
effects, then transitions to Destroyed" (§4.5).  WeaponProjectile.cpp is not
among the sources. -/
def Explode (s : ProjectileSim α ι ω δ) (hitUnit : Option ι) (_hitFeature : Option ι)
    (impactPos impactDir : float3 α) : ProjectileSim α ι ω δ :=
  let s1 := { s with phase := ProjectilePhase.Exploding }
  let s2 :=
    match hitUnit with
    | some u => { s1 with damageApplied := s1.damageApplied ++ [(u, s1.proj.damages, impactDir)] }
    | none => s1
  let s3 := { s2 with effectsSpawned := s2.effectsSpawned ++ [impactPos] }
  { s3 with phase := ProjectilePhase.Destroyed }

/-- Modelled from the spec: the three `Collision` variants, "each is the single
collision entry point for its target kind; contract: calling any `Collision`
variant more than once on the same projectile after it has begun exploding is
a no-op" (§4.5); otherwise the collision explodes the projectile at its
position.  `impactDir` is the direction the caller's projectile travels in.
WeaponProjectile.cpp is not among the sources. -/
def Collision (s : ProjectileSim α ι ω δ) (t : CollisionTarget ι) (impactDir : float3 α) :
    ProjectileSim α ι ω δ :=
  if s.phase.begunExploding then s
  else
    let s1 := { s with phase := ProjectilePhase.Collision }
    match t with
    | CollisionTarget.noTarget => s1.Explode none none s1.proj.pos impactDir
    | CollisionTarget.feature f => s1.Explode none (some f) s1.proj.pos impactDir
    | CollisionTarget.unit u => s1.Explode (some u) none s1.proj.pos impactDir

end ProjectileSim

/-! ## LuaAtlasTextures -/

/-- The data members of `LuaAtlasTextures` (LuaAtlasTextures.h:38-39);
`κ` stands for `CTextureAtlas*` and `size_t` is embedded in `Nat`. -/
structure LuaAtlasTextures (κ : Type) where
  textureAtlasMap : List (Nat × κ)
  lastIndex : Nat

namespace LuaAtlasTextures

/-- LuaAtlasTextures.h:17 `static const char prefix = '*';` (the name has
a suffix here because the source's name is a keyword). -/
def prefixChar : Char := '*'

/-- LuaAtlasTextures.h:20-22 with the member initialiser of line 39: the
constructor reserves room in the (empty) map, and `lastIndex = 1`. -/
def new (κ : Type) : LuaAtlasTextures κ :=
  { textureAtlasMap := [], lastIndex := 1 }

/-- LuaAtlasTextures.h:31 `size_t GetNextId() { return lastIndex; }` -/
def GetNextId {κ : Type} (t : LuaAtlasTextures κ) : Nat :=
  t.lastIndex

end LuaAtlasTextures

/-! ## Unit.h: LOS status bits -/

/-- Unit.h:45 `#define LOS_INLOS (1 << 0)` -/
def LOS_INLOS : Nat := 1 <<< 0
/-- Unit.h:46 `#define LOS_INRADAR (1 << 1)` -/
def LOS_INRADAR : Nat := 1 <<< 1
/-- Unit.h:47 `#define LOS_PREVLOS (1 << 2)` -/
def LOS_PREVLOS : Nat := 1 <<< 2
/-- Unit.h:48 `#define LOS_CONTRADAR (1 << 3)` -/
def LOS_CONTRADAR : Nat := 1 <<< 3

/-- Unit.h:51 `#define LOS_INLOS_MASK (1 << 8)` -/
def LOS_INLOS_MASK : Nat := 1 <<< 8
/-- Unit.h:52 `#define LOS_INRADAR_MASK (1 << 9)` -/
def LOS_INRADAR_MASK : Nat := 1 <<< 9
/-- Unit.h:53 `#define LOS_PREVLOS_MASK (1 << 10)` -/
def LOS_PREVLOS_MASK : Nat := 1 <<< 10
/-- Unit.h:54 `#define LOS_CONTRADAR_MASK (1 << 11)` -/
def LOS_CONTRADAR_MASK : Nat := 1 <<< 11

/-- Unit.h:56-57
`#define LOS_ALL_MASK_BITS (LOS_INLOS_MASK | LOS_INRADAR_MASK | LOS_PREVLOS_MASK | LOS_CONTRADAR_MASK)` -/
def LOS_ALL_MASK_BITS : Nat :=
  LOS_INLOS_MASK ||| LOS_INRADAR_MASK ||| LOS_PREVLOS_MASK ||| LOS_CONTRADAR_MASK

/-- The four status bits followed by the four mask bits. -/
def losBits : List Nat :=
  [LOS_INLOS, LOS_INRADAR, LOS_PREVLOS, LOS_CONTRADAR,
   LOS_INLOS_MASK, LOS_INRADAR_MASK, LOS_PREVLOS_MASK, LOS_CONTRADAR_MASK]

/-- A value is a single bit when it is a power of two. -/
def isSingleBit (n : Nat) : Bool :=
  n != 0 && (n &&& (n - 1)) == 0

/-! ## Unit.h: ScriptCloakBits -/

/-- Unit.h:59-69 `enum ScriptCloakBits`. -/
inductive ScriptCloakBits where
  | SCRIPT_CLOAK_ENABLED
  | SCRIPT_CLOAK_IGNORE_ENERGY
  | SCRIPT_CLOAK_IGNORE_STUNNED
  | SCRIPT_CLOAK_IGNORE_PROXIMITY
  | SCRIPT_CLOAK_IGNORE_BUILDING
  | SCRIPT_CLOAK_IGNORE_RECLAIM
  | SCRIPT_CLOAK_IGNORE_CAPTURING
  | SCRIPT_CLOAK_IGNORE_TERRAFORM
deriving DecidableEq, Repr

namespace ScriptCloakBits

/-- The enumerator values of Unit.h:61-68, `(1 << 0)` to `(1 << 7)`. -/
def val : ScriptCloakBits → Int
  | SCRIPT_CLOAK_ENABLED          => ((1 <<< 0 : Nat) : Int)
  | SCRIPT_CLOAK_IGNORE_ENERGY    => ((1 <<< 1 : Nat) : Int)
  | SCRIPT_CLOAK_IGNORE_STUNNED   => ((1 <<< 2 : Nat) : Int)
  | SCRIPT_CLOAK_IGNORE_PROXIMITY => ((1 <<< 3 : Nat) : Int)
  | SCRIPT_CLOAK_IGNORE_BUILDING  => ((1 <<< 4 : Nat) : Int)
  | SCRIPT_CLOAK_IGNORE_RECLAIM   => ((1 <<< 5 : Nat) : Int)
  | SCRIPT_CLOAK_IGNORE_CAPTURING => ((1 <<< 6 : Nat) : Int)
  | SCRIPT_CLOAK_IGNORE_TERRAFORM => ((1 <<< 7 : Nat) : Int)

/-- All eight enumerators, in declaration order. -/
def all : List ScriptCloakBits :=
  [SCRIPT_CLOAK_ENABLED, SCRIPT_CLOAK_IGNORE_ENERGY, SCRIPT_CLOAK_IGNORE_STUNNED,
   SCRIPT_CLOAK_IGNORE_PROXIMITY, SCRIPT_CLOAK_IGNORE_BUILDING, SCRIPT_CLOAK_IGNORE_RECLAIM,
   SCRIPT_CLOAK_IGNORE_CAPTURING, SCRIPT_CLOAK_IGNORE_TERRAFORM]

/-- The position of the enumerator in the declaration, which is its shift. -/
def shift : ScriptCloakBits → Nat
  | SCRIPT_CLOAK_ENABLED          => 0
  | SCRIPT_CLOAK_IGNORE_ENERGY    => 1
  | SCRIPT_CLOAK_IGNORE_STUNNED   => 2
  | SCRIPT_CLOAK_IGNORE_PROXIMITY => 3
  | SCRIPT_CLOAK_IGNORE_BUILDING  => 4
  | SCRIPT_CLOAK_IGNORE_RECLAIM   => 5
  | SCRIPT_CLOAK_IGNORE_CAPTURING => 6
  | SCRIPT_CLOAK_IGNORE_TERRAFORM => 7

end ScriptCloakBits

/-- Setting a flag: `scriptCloak | flag` on the `int scriptCloak` of
Unit.h:474.  The bitwise operators of C on a two's-complement `int` are those of
`Int`. -/
def scriptCloakSet (scriptCloak : Int) (flag : ScriptCloakBits) : Int :=
  Int.lor scriptCloak flag.val

/-- Clearing a flag: `scriptCloak & ~flag`. -/
def scriptCloakClear (scriptCloak : Int) (flag : ScriptCloakBits) : Int :=
  Int.land scriptCloak (Int.lnot flag.val)

/-- Whether a flag is set: `(scriptCloak & flag) != 0`. -/
def scriptCloakHas (scriptCloak : Int) (flag : ScriptCloakBits) : Bool :=
  Int.land scriptCloak flag.val != 0

/-! ## Unit.h: CUnit -/

/-- The static data members of `CUnit` (Unit.h:532-539): process-wide state
shared by all units. -/
structure CUnitStatics (α : Type) where
  expMultiplier : α
  expPowerScale : α
  expHealthScale : α
  expReloadScale : α
  expGrade : α
  empDecline : α
  spawnFeature : Bool

namespace CUnitStatics

variable {α : Type}

/-- Unit.h:208 `static void SetExpMultiplier(float value) { expMultiplier = value; }` -/
def SetExpMultiplier (g : CUnitStatics α) (value : α) : CUnitStatics α :=
  { g with expMultiplier := value }
/-- Unit.h:209 `static float GetExpMultiplier() { return expMultiplier; }` -/
def GetExpMultiplier (g : CUnitStatics α) : α := g.expMultiplier
/-- Unit.h:210 `static void SetExpPowerScale(float value) { expPowerScale = value; }` -/
def SetExpPowerScale (g : CUnitStatics α) (value : α) : CUnitStatics α :=
  { g with expPowerScale := value }
/-- Unit.h:211 `static float GetExpPowerScale() { return expPowerScale; }` -/
def GetExpPowerScale (g : CUnitStatics α) : α := g.expPowerScale
/-- Unit.h:212 `static void SetExpHealthScale(float value) { expHealthScale = value; }` -/
def SetExpHealthScale (g : CUnitStatics α) (value : α) : CUnitStatics α :=
  { g with expHealthScale := value }
/-- Unit.h:213 `static float GetExpHealthScale() { return expHealthScale; }` -/
def GetExpHealthScale (g : CUnitStatics α) : α := g.expHealthScale
/-- Unit.h:214 `static void SetExpReloadScale(float value) { expReloadScale = value; }` -/
def SetExpReloadScale (g : CUnitStatics α) (value : α) : CUnitStatics α :=
  { g with expReloadScale := value }
/-- Unit.h:215 `static float GetExpReloadScale() { return expReloadScale; }` -/
def GetExpReloadScale (g : CUnitStatics α) : α := g.expReloadScale
/-- Unit.h:216 `static void SetExpGrade(float value) { expGrade = value; }` -/
def SetExpGrade (g : CUnitStatics α) (value : α) : CUnitStatics α :=
  { g with expGrade := value }
/-- Unit.h:217 `static float GetExpGrade() { return expGrade; }` -/
def GetExpGrade (g : CUnitStatics α) : α := g.expGrade
/-- Unit.h:219 `static void SetSpawnFeature(bool b) { spawnFeature = b; }` -/
def SetSpawnFeature (g : CUnitStatics α) (b : Bool) : CUnitStatics α :=
  { g with spawnFeature := b }

end CUnitStatics

/-- The data members of `CUnit` that the inline code of Unit.h and the damage
model read or write, with `health` of its base `CSolidObject`.

* `τ` identifies transport units (`CTransportUnit*`);
* `π` identifies model pieces (`LocalModelPiece*`). -/
structure CUnit (α τ π : Type) where
  /-- `CSolidObject::health`, inherited. -/
  health : α
  maxHealth : α
  paralyzeDamage : α
  neutral : Bool
  transporter : Option τ
  losStatus : List Nat
  armorType : Nat
  lastAttackedPiece : Option π
  lastAttackedPieceFrame : Int
  crashing : Bool
  isDead : Bool
  curArmorMultiple : α
  scriptCloak : Int
  isCloaked : Bool
  stunned : Bool

namespace CUnit

variable {α τ π : Type}

/-- Unit.h:161 `bool IsNeutral() const { return neutral; }` -/
def IsNeutral (u : CUnit α τ π) : Bool := u.neutral
/-- Unit.h:162 `bool IsCloaked() const { return isCloaked; }` -/
def IsCloaked (u : CUnit α τ π) : Bool := u.isCloaked
/-- Unit.h:167 `void SetCrashing(bool crash) { crashing = crash; }` -/
def SetCrashing (u : CUnit α τ π) (crash : Bool) : CUnit α τ π := { u with crashing := crash }
/-- Unit.h:168 `bool IsCrashing() const { return crashing; }` -/
def IsCrashing (u : CUnit α τ π) : Bool := u.crashing

/-- Unit.h:184 `void SetTransporter(CTransportUnit* trans) { transporter = trans; }` -/
def SetTransporter (u : CUnit α τ π) (trans : Option τ) : CUnit α τ π :=
  { u with transporter := trans }

/-- Unit.h:185-190
```
inline CTransportUnit* GetTransporter() const {
    if (GML::SimEnabled())
        return (*(CTransportUnit* volatile*) &transporter);
    return transporter;
}
```
`GML::SimEnabled()` (lib/gml/gml_base.h, not among the sources) is the
parameter `simEnabled`.  In a sequential execution the volatile read is a read
of the field.  The second component is the unit after the call: the method is
`const` and its body assigns nothing. -/
def GetTransporter (simEnabled : Bool) (u : CUnit α τ π) : Option τ × CUnit α τ π :=
  if simEnabled then (u.transporter, u)
  else (u.transporter, u)

/-- Unit.h:120-123
```
void SetLastAttackedPiece(LocalModelPiece* p, int f) {
    lastAttackedPiece      = p;
    lastAttackedPieceFrame = f;
}
``` -/
def SetLastAttackedPiece (u : CUnit α τ π) (p : Option π) (f : Int) : CUnit α τ π :=
  let u1 := { u with lastAttackedPiece := p }
  { u1 with lastAttackedPieceFrame := f }

/-- Unit.h:124-128
```
LocalModelPiece* GetLastAttackedPiece(int f) const {
    if (lastAttackedPieceFrame == f)
        return lastAttackedPiece;
    return NULL;
}
``` -/
def GetLastAttackedPiece (u : CUnit α τ π) (f : Int) : Option π :=
  if u.lastAttackedPieceFrame = f then u.lastAttackedPiece
  else none

end CUnit

/-! ## Concrete inputs -/

/-- A projectile 5 away from its start, `(3, 4, 0)` from the origin, with
`myrange = -5`, over the integers. -/
def sampleProjectile : CWeaponProjectile Int Nat Nat Nat :=
  { pos := ⟨3, 4, 0⟩, myrange := -5, animProgress := 1,
    damages := some 0, weaponDef := some 0, target := none, weaponNum := 0,
    ttl := 10, bounces := 0, targeted := false, bounced := false,
    startPos := ⟨0, 0, 0⟩, targetPos := ⟨9, 9, 0⟩,
    bounceHitPos := ⟨0, 0, 0⟩, bounceParams := ⟨0, 0, 0⟩,
    extraAnimProgress := fun i => 20 + i.val }

/-- A projectile at `(x, y, z)` that started at the origin, with
`myrange = r`, in `float`. -/
def floatProjectile (x y z r : Int) : CWeaponProjectile F32 Nat Nat Nat :=
  { pos := ⟨F32.fin x 0, F32.fin y 0, F32.fin z 0⟩, myrange := F32.fin r 0,
    animProgress := F32.fin 0 0,
    damages := some 0, weaponDef := some 0, target := none, weaponNum := 0,
    ttl := 10, bounces := 0, targeted := false, bounced := false,
    startPos := ⟨F32.fin 0 0, F32.fin 0 0, F32.fin 0 0⟩,
    targetPos := ⟨F32.fin 9 0, F32.fin 9 0, F32.fin 0 0⟩,
    bounceHitPos := ⟨F32.fin 0 0, F32.fin 0 0, F32.fin 0 0⟩,
    bounceParams := ⟨F32.fin 0 0, F32.fin 0 0, F32.fin 0 0⟩,
    extraAnimProgress := fun _ => F32.fin 0 0 }

/-- The sample projectile in flight, with no effect on the world yet. -/
def sampleSim : ProjectileSim Int Nat Nat Nat :=
  { proj := sampleProjectile, phase := ProjectilePhase.Flight,
    damageApplied := [], effectsSpawned := [] }

/-- A unit with `health = 100` and `curArmorMultiple = 1`, neither stunned
nor dead, over the integers. -/
def sampleUnit : CUnit Int Nat Nat :=
  { health := 100, maxHealth := 100, paralyzeDamage := 0, neutral := false,
    transporter := none, losStatus := [0, 0], armorType := 0,
    lastAttackedPiece := none, lastAttackedPieceFrame := -1,
    crashing := false, isDead := false, curArmorMultiple := 1,
    scriptCloak := 0, isCloaked := false, stunned := false }

/-- Two integers with the same bits are equal. -/
theorem int_eq_of_testBit_eq (x y : Int) (h : ∀ k, x.testBit k = y.testBit k) : x = y := by
  have big : ∀ m n : Nat, m.testBit (m + n) = false ∧ n.testBit (m + n) = false := by
    intro m n
    constructor
    · apply Nat.testBit_lt_two_pow
      exact Nat.lt_of_lt_of_le (Nat.lt_two_pow m) (Nat.pow_le_pow_right (by decide) (Nat.le_add_right m n))
    · apply Nat.testBit_lt_two_pow
      exact Nat.lt_of_lt_of_le (Nat.lt_two_pow n) (Nat.pow_le_pow_right (by decide) (Nat.le_add_left n m))
  cases x with
  | ofNat m =>
    cases y with
    | ofNat n =>
      have : m = n := Nat.eq_of_testBit_eq (fun k => h k)
      rw [this]
    | negSucc n =>
      have hk := h (m + n)
      simp only [Int.testBit, (big m n).1, (big m n).2] at hk
      simp at hk
  | negSucc m =>
    cases y with
    | ofNat n =>
      have hk := h (m + n)
      simp only [Int.testBit, (big m n).1, (big m n).2] at hk
      simp at hk
    | negSucc n =>
      have : m = n := Nat.eq_of_testBit_eq (fun k => by
        have hk := h k
        simp only [Int.testBit] at hk
        simpa using hk)
      rw [this]

/-- The bits of a power of two. -/
theorem int_testBit_two_pow (i k : Nat) : Int.testBit (((2 ^ i : Nat)) : Int) k = decide (i = k) := by
  show Nat.testBit (2 ^ i) k = decide (i = k)
  exact Nat.testBit_two_pow

/-- Each enumerator is the power of two of its position. -/
theorem ScriptCloakBits.val_eq_two_pow (f : ScriptCloakBits) :
    f.val = ((2 ^ f.shift : Nat) : Int) := by
  cases f <;> rfl

/-- Distinct enumerators have distinct positions. -/
theorem ScriptCloakBits.shift_ne {f g : ScriptCloakBits} (h : f ≠ g) : f.shift ≠ g.shift := by
  cases f <;> cases g <;> first | (exact absurd rfl h) | decide

/-- Setting a flag leaves the AND with any other flag as it was. -/
theorem scriptCloakSet_land (v : Int) {f g : ScriptCloakBits} (h : f ≠ g) :
    Int.land (scriptCloakSet v f) g.val = Int.land v g.val := by
  apply int_eq_of_testBit_eq
  intro k
  have hs := ScriptCloakBits.shift_ne h
  simp only [scriptCloakSet, Int.testBit_land, Int.testBit_lor,
    ScriptCloakBits.val_eq_two_pow, int_testBit_two_pow]
  by_cases hg : g.shift = k
  · have hf : ¬ f.shift = k := fun hf => hs (hf.trans hg.symm)
    simp [hg, hf]
  · simp [hg]

/-- Clearing a flag leaves the AND with any other flag as it was. -/
theorem scriptCloakClear_land (v : Int) {f g : ScriptCloakBits} (h : f ≠ g) :
    Int.land (scriptCloakClear v f) g.val = Int.land v g.val := by
  apply int_eq_of_testBit_eq
  intro k
  have hs := ScriptCloakBits.shift_ne h
  simp only [scriptCloakClear, Int.testBit_land, Int.testBit_lnot,
    ScriptCloakBits.val_eq_two_pow, int_testBit_two_pow]
  by_cases hg : g.shift = k
  · have hf : ¬ f.shift = k := fun hf => hs (hf.trans hg.symm)
    simp [hg, hf]
  · simp [hg]

/-! ### Floats -/

/-- Zero has no binary digits. -/
theorem F32.bitLengthAux_zero (fuel : Nat) : F32.bitLengthAux fuel 0 = 0 := by
  cases fuel <;> simp [F32.bitLengthAux]

/-- With enough fuel the digit count `k` of `n` has `n < 2 ^ k ≤ 2 * n`. -/
theorem F32.bitLengthAux_bounds (fuel : Nat) : ∀ n : Nat, n ≤ fuel →
    n < 2 ^ F32.bitLengthAux fuel n ∧ (0 < n → 2 ^ F32.bitLengthAux fuel n ≤ 2 * n) := by
  induction fuel with
  | zero =>
    intro n hn
    have h0 : n = 0 := by omega
    subst h0
    simp [F32.bitLengthAux]
  | succ fuel ih =>
    intro n hn
    by_cases h0 : n = 0
    · subst h0
      simp [F32.bitLengthAux]
    · have hrec : F32.bitLengthAux (fuel + 1) n = F32.bitLengthAux fuel (n / 2) + 1 := by
        simp [F32.bitLengthAux, h0]
      have hle : n / 2 ≤ fuel := by omega
      obtain ⟨h1, h2⟩ := ih (n / 2) hle
      rw [hrec, pow_succ]
      constructor
      · omega
      · intro _
        by_cases hz : n / 2 = 0
        · have hb : F32.bitLengthAux fuel (n / 2) = 0 := by
            rw [hz]; exact F32.bitLengthAux_zero fuel
          rw [hb]
          omega
        · have := h2 (by omega)
          omega

/-- The digit count `k` of `n` has `n < 2 ^ k`, and `2 ^ k ≤ 2 * n` for
positive `n`: the fuel of `bitLength` is enough. -/
theorem F32.bitLength_bounds (n : Nat) :
    n < 2 ^ F32.bitLength n ∧ (0 < n → 2 ^ F32.bitLength n ≤ 2 * n) :=
  F32.bitLengthAux_bounds n n (Nat.le_refl n)

/-- Rounding always gives a value a binary32 variable can hold. -/
theorem F32.roundNearestEven_isBinary32 (m e : Int) :
    (F32.roundNearestEven m e).isBinary32 = true := by
  unfold F32.roundNearestEven
  by_cases hm : m = 0
  · simp [hm, F32.isBinary32]
  · rw [if_neg hm]
    dsimp only
    have hB := (F32.bitLength_bounds m.natAbs).1
    generalize m.natAbs = n at hB ⊢
    generalize F32.bitLength n = B at hB ⊢
    have hq : ∀ e1 : Int, e + (B : Int) - 24 ≤ e1 →
        (if e1 ≤ e then n * 2 ^ (e - e1).toNat
          else
            if 2 * (n % 2 ^ (e1 - e).toNat) > 2 ^ (e1 - e).toNat
                ∨ (2 * (n % 2 ^ (e1 - e).toNat) = 2 ^ (e1 - e).toNat
                  ∧ n / 2 ^ (e1 - e).toNat % 2 = 1)
            then n / 2 ^ (e1 - e).toNat + 1 else n / 2 ^ (e1 - e).toNat) ≤ 2 ^ 24 := by
      intro e1 he1
      by_cases hle : e1 ≤ e
      · rw [if_pos hle]
        have hj : B + (e - e1).toNat ≤ 24 := by omega
        calc n * 2 ^ (e - e1).toNat ≤ 2 ^ B * 2 ^ (e - e1).toNat :=
              Nat.mul_le_mul_right _ (Nat.le_of_lt hB)
          _ = 2 ^ (B + (e - e1).toNat) := (pow_add 2 _ _).symm
          _ ≤ 2 ^ 24 := Nat.pow_le_pow_right (by decide) hj
      · rw [if_neg hle]
        have hk : B ≤ (e1 - e).toNat + 24 := by omega
        have hd : n / 2 ^ (e1 - e).toNat < 2 ^ 24 := by
          apply Nat.div_lt_of_lt_mul
          calc n < 2 ^ B := hB
            _ ≤ 2 ^ ((e1 - e).toNat + 24) := Nat.pow_le_pow_right (by decide) hk
            _ = 2 ^ (e1 - e).toNat * 2 ^ 24 := pow_add 2 _ _
        split_ifs <;> omega
    have h149 : (-149 : Int) ≤ max (e + (B : Int) - 24) (-149) := le_max_right _ _
    have hq' := hq (max (e + (B : Int) - 24) (-149)) (le_max_left _ _)
    generalize max (e + (B : Int) - 24) (-149) = e1 at h149 hq' ⊢
    generalize (if e1 ≤ e then n * 2 ^ (e - e1).toNat
          else
            if 2 * (n % 2 ^ (e1 - e).toNat) > 2 ^ (e1 - e).toNat
                ∨ (2 * (n % 2 ^ (e1 - e).toNat) = 2 ^ (e1 - e).toNat
                  ∧ n / 2 ^ (e1 - e).toNat % 2 = 1)
            then n / 2 ^ (e1 - e).toNat + 1 else n / 2 ^ (e1 - e).toNat) = q at hq' ⊢
    split_ifs <;> simp [F32.isBinary32] <;> omega

/-- Sums, differences and products are values a binary32 variable can hold. -/
theorem F32.arith_isBinary32 (a b : F32) :
    (a + b).isBinary32 = true ∧ (a - b).isBinary32 = true ∧ (a * b).isBinary32 = true := by
  refine ⟨?_, ?_, ?_⟩
  · show (F32.add a b).isBinary32 = true
    cases a <;> cases b <;> simp only [F32.add, F32.roundNearestEven_isBinary32] <;>
      first | rfl | (split_ifs <;> rfl)
  · show (F32.sub a b).isBinary32 = true
    cases a <;> cases b <;> simp only [F32.sub, F32.roundNearestEven_isBinary32] <;>
      first | rfl | (split_ifs <;> rfl)
  · show (F32.mul a b).isBinary32 = true
    cases a <;> cases b <;> simp only [F32.mul, F32.roundNearestEven_isBinary32] <;>
      first | rfl | (split_ifs <;> rfl)

/-- Rounding leaves a binary32 number as it is. -/
theorem F32.roundNearestEven_exact (m e : Int) (hm : m.natAbs < 2 ^ 24)
    (he : -149 ≤ e) (he2 : e ≤ 104) :
    (F32.roundNearestEven m e).isFinite = true
    ∧ (F32.roundNearestEven m e).toRat = (m : ℚ) * (2 : ℚ) ^ e := by
  unfold F32.roundNearestEven
  by_cases h0 : m = 0
  · simp [h0, F32.isFinite, F32.toRat]
  · rw [if_neg h0]
    dsimp only
    have hB := F32.bitLength_bounds m.natAbs
    have hpos : 0 < m.natAbs := Int.natAbs_pos.mpr h0
    have hB24 : F32.bitLength m.natAbs ≤ 24 := by
      have h2 := hB.2 hpos
      have h3 : 2 ^ F32.bitLength m.natAbs < 2 ^ 25 := by omega
      have := (Nat.pow_lt_pow_iff_right (by decide : 1 < 2)).mp h3
      omega
    have hB1 := hB.1
    generalize F32.bitLength m.natAbs = B at hB1 hB24 ⊢
    have hle : max (e + (B : Int) - 24) (-149) ≤ e := max_le (by omega) he
    have hge : e + (B : Int) - 24 ≤ max (e + (B : Int) - 24) (-149) := le_max_left _ _
    generalize max (e + (B : Int) - 24) (-149) = e1 at hle hge ⊢
    rw [if_pos hle]
    have hj : B + (e - e1).toNat ≤ 24 := by omega
    have hq : m.natAbs * 2 ^ (e - e1).toNat < 2 ^ 24 :=
      calc m.natAbs * 2 ^ (e - e1).toNat < 2 ^ B * 2 ^ (e - e1).toNat :=
            Nat.mul_lt_mul_of_pos_right hB1 (Nat.two_pow_pos _)
        _ = 2 ^ (B + (e - e1).toNat) := (pow_add 2 _ _).symm
        _ ≤ 2 ^ 24 := Nat.pow_le_pow_right (by decide) hj
    have hq' : ¬ (m.natAbs * 2 ^ (e - e1).toNat ≥ 2 ^ 24) := not_le.mpr hq
    have he1 : ¬ (e1 > 104) := by omega
    simp only [if_neg hq', if_neg he1]
    have hsplit : (2 : ℚ) ^ e = (2 : ℚ) ^ (e - e1).toNat * (2 : ℚ) ^ e1 := by
      rw [← zpow_natCast, ← zpow_add₀ (by norm_num : (2 : ℚ) ≠ 0),
        Int.toNat_of_nonneg (by omega)]
      congr 1
      omega
    by_cases hneg : m < 0
    · simp only [if_pos hneg]
      refine ⟨rfl, ?_⟩
      generalize hn : m.natAbs = n
      have hmn : m = -(n : Int) := by omega
      subst hmn
      simp only [F32.toRat]
      rw [hsplit]
      push_cast
      ring
    · simp only [if_neg hneg]
      refine ⟨rfl, ?_⟩
      generalize hn : m.natAbs = n
      have hmn : m = (n : Int) := by omega
      subst hmn
      simp only [F32.toRat]
      rw [hsplit]
      push_cast
      ring

/-- Rounding at work: ties go to the even significand (`2 ^ 24 + 1` down,
`2 ^ 24 + 3` up), the largest finite number plus half a unit in the last place
overflows, and half the smallest subnormal number rounds to zero. -/
theorem F32.roundNearestEven_examples :
    F32.roundNearestEven 16777217 0 = F32.fin 8388608 1
    ∧ F32.roundNearestEven 16777219 0 = F32.fin 8388610 1
    ∧ F32.roundNearestEven (-16777217) 0 = F32.fin (-8388608) 1
    ∧ F32.fin 16777215 104 + F32.fin 1 103 = F32.inf false
    ∧ F32.fin 16777215 104 + F32.fin 1 102 = F32.fin 16777215 104
    ∧ F32.fin 1 (-149) * F32.fin 1 (-1) = F32.fin 0 (-149)
    ∧ F32.fin 3 (-149) * F32.fin 1 (-1) = F32.fin 2 (-149)
    ∧ F32.inf false - F32.inf false = F32.nan
    ∧ F32.inf true * F32.fin 0 0 = F32.nan
    ∧ F32.gt F32.nan F32.nan = false := by
  decide

/-! ### The order of floats -/

/-- No float is less than itself. -/
theorem F32.lt_irrefl (a : F32) : F32.lt a a = false := by
  cases a <;> simp [F32.lt]

/-- On finite floats `<` is the order of the numbers they stand for. -/
theorem F32.lt_iff_toRat (a b : F32) (ha : a.isFinite = true) (hb : b.isFinite = true) :
    F32.lt a b = true ↔ a.toRat < b.toRat := by
  cases a with
  | nan => simp [F32.isFinite] at ha
  | inf s => simp [F32.isFinite] at ha
  | fin m1 e1 =>
    cases b with
    | nan => simp [F32.isFinite] at hb
    | inf t => simp [F32.isFinite] at hb
    | fin m2 e2 =>
      have hpos : (0 : ℚ) < (2 : ℚ) ^ (min e1 e2) := zpow_pos (by norm_num) _
      have hsplit : ∀ e : Int, min e1 e2 ≤ e →
          (2 : ℚ) ^ e = (2 : ℚ) ^ (e - min e1 e2).toNat * (2 : ℚ) ^ (min e1 e2) := by
        intro e he
        rw [← zpow_natCast, ← zpow_add₀ (by norm_num : (2 : ℚ) ≠ 0),
          Int.toNat_of_nonneg (by omega)]
        congr 1
        omega
      simp only [F32.lt, F32.toRat, decide_eq_true_eq]
      rw [hsplit e1 (min_le_left _ _), hsplit e2 (min_le_right _ _),
        ← mul_assoc, ← mul_assoc, mul_lt_mul_right hpos]
      constructor
      · intro h
        have := (Int.cast_lt (R := ℚ)).mpr h
        push_cast at this
        exact this
      · intro h
        apply (Int.cast_lt (R := ℚ)).mp
        push_cast
        exact h

/-! ### The claims -/

/-- C1, amended: `TraveledRange()` is true exactly when the squared length
of `pos - startPos` as the code computes it, every difference, product and
sum rounded to `float`, is strictly greater than the `float` product
`myrange * myrange`; when both are finite that is the order of the two
computed numbers; it is false when the two computed values are equal; and a
state that differs only in `ttl` gives the same result. -/
theorem CWeaponProjectile.TraveledRange_float {ι ω δ : Type}
    (p : CWeaponProjectile F32 ι ω δ) :
    (p.TraveledRange = true ↔
      F32.gt
        ((p.pos.x - p.startPos.x) * (p.pos.x - p.startPos.x)
          + (p.pos.y - p.startPos.y) * (p.pos.y - p.startPos.y)
          + (p.pos.z - p.startPos.z) * (p.pos.z - p.startPos.z))
        (p.myrange * p.myrange) = true)
    ∧ ((float3.sub p.pos p.startPos).SqLength.isFinite = true →
        (p.myrange * p.myrange).isFinite = true →
        (p.TraveledRange = true ↔
          (float3.sub p.pos p.startPos).SqLength.toRat > (p.myrange * p.myrange).toRat))
    ∧ ((float3.sub p.pos p.startPos).SqLength = p.myrange * p.myrange →
        p.TraveledRange = false)
    ∧ (∀ ttl2 : Int, CWeaponProjectile.TraveledRange { p with ttl := ttl2 } = p.TraveledRange) := by
  refine ⟨Iff.rfl, ?_, ?_, fun _ => rfl⟩
  · intro h1 h2
    unfold CWeaponProjectile.TraveledRange F32.gt
    exact F32.lt_iff_toRat _ _ h2 h1
  · intro h
    unfold CWeaponProjectile.TraveledRange F32.gt
    rw [h]
    exact F32.lt_irrefl _

/-- C2: the base `ShieldRepulse` returns 0 (unaffected) for every shield
position, force and maximum speed, and leaves the projectile unchanged. -/
theorem CWeaponProjectile.ShieldRepulse_spec {α ι ω δ : Type}
    (p : CWeaponProjectile α ι ω δ) (shieldPos : float3 α) (shieldForce shieldMaxSpeed : α) :
    (p.ShieldRepulse shieldPos shieldForce shieldMaxSpeed).1 = 0
    ∧ (p.ShieldRepulse shieldPos shieldForce shieldMaxSpeed).2 = p :=
  ⟨rfl, rfl⟩

/-- C3: a `Collision` call always leaves the projectile in a state that has
begun exploding; any `Collision` variant on a projectile that has begun
exploding is a no-op; so a second `Collision` call, of any variant, after a
first one changes nothing: no further damage application and no further
effect spawn. -/
theorem ProjectileSim.Collision_idempotent {α ι ω δ : Type} (s : ProjectileSim α ι ω δ)
    (t1 t2 : CollisionTarget ι) (d1 d2 : float3 α) :
    (s.Collision t1 d1).phase.begunExploding = true
    ∧ (∀ s0 : ProjectileSim α ι ω δ, s0.phase.begunExploding = true → s0.Collision t2 d2 = s0)
    ∧ (s.Collision t1 d1).Collision t2 d2 = s.Collision t1 d1
    ∧ ((s.Collision t1 d1).Collision t2 d2).damageApplied = (s.Collision t1 d1).damageApplied
    ∧ ((s.Collision t1 d1).Collision t2 d2).effectsSpawned
        = (s.Collision t1 d1).effectsSpawned := by
  have hnoop : ∀ s0 : ProjectileSim α ι ω δ, s0.phase.begunExploding = true →
      s0.Collision t2 d2 = s0 := by
    intro s0 h0
    simp [ProjectileSim.Collision, h0]
  have hbegun : (s.Collision t1 d1).phase.begunExploding = true := by
    by_cases h : s.phase.begunExploding = true
    · simp [ProjectileSim.Collision, h]
    · have hc : s.Collision t1 d1 =
          match t1 with
          | CollisionTarget.noTarget =>
            ProjectileSim.Explode { s with phase := ProjectilePhase.Collision }
              none none s.proj.pos d1
          | CollisionTarget.feature f =>
            ProjectileSim.Explode { s with phase := ProjectilePhase.Collision }
              none (some f) s.proj.pos d1
          | CollisionTarget.unit u =>
            ProjectileSim.Explode { s with phase := ProjectilePhase.Collision }
              (some u) none s.proj.pos d1 := by
        unfold ProjectileSim.Collision
        rw [if_neg h]
      rw [hc]
      cases t1 <;> rfl
  have hrep := hnoop (s.Collision t1 d1) hbegun
  exact ⟨hbegun, hnoop, hrep, by rw [hrep], by rw [hrep]⟩

/-- C5: atlas ids start at 1: on a freshly constructed registry `GetNextId()`
returns 1; and the reserved prefix character is the asterisk. -/
theorem LuaAtlasTextures.GetNextId_new (κ : Type) :
    (LuaAtlasTextures.new κ).GetNextId = 1 ∧ LuaAtlasTextures.prefixChar = '*' :=
  ⟨rfl, rfl⟩

/-- C6: each LOS mask bit is its status bit shifted left by 8;
`LOS_ALL_MASK_BITS` is `0x0F00` and is the OR of the four mask bits; the four
status bits and the four mask bits are eight pairwise distinct single bits;
and each of them, like `LOS_ALL_MASK_BITS`, fits in 16 bits. -/
theorem LOS_bits_layout :
    LOS_INLOS_MASK = LOS_INLOS <<< 8
    ∧ LOS_INRADAR_MASK = LOS_INRADAR <<< 8
    ∧ LOS_PREVLOS_MASK = LOS_PREVLOS <<< 8
    ∧ LOS_CONTRADAR_MASK = LOS_CONTRADAR <<< 8
    ∧ LOS_ALL_MASK_BITS = 0x0F00
    ∧ LOS_ALL_MASK_BITS
        = LOS_INLOS_MASK ||| LOS_INRADAR_MASK ||| LOS_PREVLOS_MASK ||| LOS_CONTRADAR_MASK
    ∧ (∀ b ∈ losBits, b &&& LOS_ALL_MASK_BITS ≠ 0 ↔
        b ∈ [LOS_INLOS_MASK, LOS_INRADAR_MASK, LOS_PREVLOS_MASK, LOS_CONTRADAR_MASK])
    ∧ losBits.length = 8
    ∧ losBits.Nodup
    ∧ (∀ b ∈ losBits, isSingleBit b = true)
    ∧ (∀ b ∈ losBits, b < 2 ^ 16)
    ∧ LOS_ALL_MASK_BITS < 2 ^ 16 := by
  refine ⟨by decide, by decide, by decide, by decide, by decide, rfl, by decide, rfl,
    by decide, by decide, by decide, by decide⟩

/-- C9: in a sequential execution, after `SetTransporter(t)` the call
`GetTransporter()` returns `t` (null included), whatever `GML::SimEnabled()`
returns, and `GetTransporter` leaves the unit as it is. -/
theorem CUnit.GetTransporter_SetTransporter {α τ π : Type} (u : CUnit α τ π)
    (t : Option τ) (simEnabled : Bool) :
    (CUnit.GetTransporter simEnabled (u.SetTransporter t)).1 = t
    ∧ (CUnit.GetTransporter true (u.SetTransporter t)).1
        = (CUnit.GetTransporter false (u.SetTransporter t)).1
    ∧ (CUnit.GetTransporter simEnabled u).2 = u
    ∧ (CUnit.GetTransporter true u).1 = (CUnit.GetTransporter false u).1 := by
  cases simEnabled <;> exact ⟨rfl, rfl, rfl, rfl⟩

/-- C10: for each of the five experience tunables, the setter called with `v`
makes its getter return `v` and leaves what the other four getters return
unchanged. -/
theorem CUnitStatics.exp_setters_frame {α : Type} (g : CUnitStatics α) (v : α) :
    ((g.SetExpMultiplier v).GetExpMultiplier = v
      ∧ (g.SetExpMultiplier v).GetExpPowerScale = g.GetExpPowerScale
      ∧ (g.SetExpMultiplier v).GetExpHealthScale = g.GetExpHealthScale
      ∧ (g.SetExpMultiplier v).GetExpReloadScale = g.GetExpReloadScale
      ∧ (g.SetExpMultiplier v).GetExpGrade = g.GetExpGrade)
    ∧ ((g.SetExpPowerScale v).GetExpPowerScale = v
      ∧ (g.SetExpPowerScale v).GetExpMultiplier = g.GetExpMultiplier
      ∧ (g.SetExpPowerScale v).GetExpHealthScale = g.GetExpHealthScale
      ∧ (g.SetExpPowerScale v).GetExpReloadScale = g.GetExpReloadScale
      ∧ (g.SetExpPowerScale v).GetExpGrade = g.GetExpGrade)
    ∧ ((g.SetExpHealthScale v).GetExpHealthScale = v
      ∧ (g.SetExpHealthScale v).GetExpMultiplier = g.GetExpMultiplier
      ∧ (g.SetExpHealthScale v).GetExpPowerScale = g.GetExpPowerScale
      ∧ (g.SetExpHealthScale v).GetExpReloadScale = g.GetExpReloadScale
      ∧ (g.SetExpHealthScale v).GetExpGrade = g.GetExpGrade)
    ∧ ((g.SetExpReloadScale v).GetExpReloadScale = v
      ∧ (g.SetExpReloadScale v).GetExpMultiplier = g.GetExpMultiplier
      ∧ (g.SetExpReloadScale v).GetExpPowerScale = g.GetExpPowerScale
      ∧ (g.SetExpReloadScale v).GetExpHealthScale = g.GetExpHealthScale
      ∧ (g.SetExpReloadScale v).GetExpGrade = g.GetExpGrade)
    ∧ ((g.SetExpGrade v).GetExpGrade = v
      ∧ (g.SetExpGrade v).GetExpMultiplier = g.GetExpMultiplier
      ∧ (g.SetExpGrade v).GetExpPowerScale = g.GetExpPowerScale
      ∧ (g.SetExpGrade v).GetExpHealthScale = g.GetExpHealthScale
      ∧ (g.SetExpGrade v).GetExpReloadScale = g.GetExpReloadScale) :=
  ⟨⟨rfl, rfl, rfl, rfl, rfl⟩, ⟨rfl, rfl, rfl, rfl, rfl⟩, ⟨rfl, rfl, rfl, rfl, rfl⟩,
   ⟨rfl, rfl, rfl, rfl, rfl⟩, ⟨rfl, rfl, rfl, rfl, rfl⟩⟩

/-- C7: the eight `ScriptCloakBits` flags are the single bits `1 << 0` to
`1 << 7`, pairwise disjoint; for every `scriptCloak` value and every flag,
setting or clearing that flag does not change whether any other flag is set;
and the OR of the eight flags is `0xFF`. -/
theorem ScriptCloakBits.independent :
    ScriptCloakBits.all.map ScriptCloakBits.val = [1, 2, 4, 8, 16, 32, 64, 128]
    ∧ (∀ f : ScriptCloakBits, f ∈ ScriptCloakBits.all)
    ∧ (∀ f : ScriptCloakBits, f.val = 2 ^ f.shift ∧ f.shift ≤ 7)
    ∧ (∀ f g : ScriptCloakBits, f ≠ g → Int.land f.val g.val = 0)
    ∧ (∀ (scriptCloak : Int) (f g : ScriptCloakBits), f ≠ g →
        scriptCloakHas (scriptCloakSet scriptCloak f) g = scriptCloakHas scriptCloak g
        ∧ scriptCloakHas (scriptCloakClear scriptCloak f) g = scriptCloakHas scriptCloak g)
    ∧ ScriptCloakBits.all.foldl (fun acc f => Int.lor acc f.val) 0 = 0xFF := by
  refine ⟨by decide, ?_, ?_, ?_, ?_, by decide⟩
  · intro f
    cases f <;> decide
  · intro f
    cases f <;> exact ⟨rfl, by decide⟩
  · intro f g h
    cases f <;> cases g <;> first | (exact absurd rfl h) | decide
  · intro v f g h
    unfold scriptCloakHas
    rw [scriptCloakSet_land v h, scriptCloakClear_land v h]
    exact ⟨rfl, rfl⟩

/-- C8: for every `texIdx` the specialisation `AddWeaponEffectsQuad<texIdx>`
does what the lookup through the table does (index 0: no animation
parameters; index 1: `animParams[0]` and `animProgress`; index `k` of 2..4:
`animParams[k-1]` and `extraAnimProgress[k-2]`); for `texIdx` in 0..4 the
`animParams` index used is at most 3 and the `extraAnimProgress` index used is
less than 3; and with a non-null `weaponDef` whose `animParams` has at least
four entries no access is out of bounds: the call goes through. -/
theorem CWeaponProjectile.AddWeaponEffectsQuad_table {α ι ω δ P Q R : Type}
    (animParams : ω → List P) (AddEffectsQuadImpl : Q → Q → Q → Q → Option (P × α) → R)
    (texIdx : Nat) (p : CWeaponProjectile α ι ω δ) (tl tr br bl : Q) :
    p.AddWeaponEffectsQuad animParams AddEffectsQuadImpl texIdx tl tr br bl
      = p.AddWeaponEffectsQuadByTable animParams AddEffectsQuadImpl texIdx tl tr br bl
    ∧ (texIdx ≤ 4 → ∀ i src, CWeaponProjectile.effectsQuadTable texIdx = some (i, src) →
        i ≤ 3 ∧ ∀ j, src = CWeaponProjectile.AnimProgressSource.extraAnimProgress j → j < 3)
    ∧ (texIdx ≤ 4 → ∀ wd, p.weaponDef = some wd → 4 ≤ (animParams wd).length →
        (p.AddWeaponEffectsQuad animParams AddEffectsQuadImpl texIdx tl tr br bl).isSome
          = true) := by
  refine ⟨?_, ?_, ?_⟩
  · rcases texIdx with _ | _ | _ | _ | _ | n
    · simp [CWeaponProjectile.AddWeaponEffectsQuad, CWeaponProjectile.AddWeaponEffectsQuadByTable,
        CWeaponProjectile.effectsQuadTable]
    · simp [CWeaponProjectile.AddWeaponEffectsQuad, CWeaponProjectile.AddWeaponEffectsQuadByTable,
        CWeaponProjectile.effectsQuadTable, CWeaponProjectile.readProgress]
      cases p.weaponDef with
      | none => rfl
      | some wd =>
        dsimp only
        cases (animParams wd)[0]? <;> rfl
    · simp [CWeaponProjectile.AddWeaponEffectsQuad, CWeaponProjectile.AddWeaponEffectsQuadByTable,
        CWeaponProjectile.effectsQuadTable, CWeaponProjectile.readProgress]
    · simp [CWeaponProjectile.AddWeaponEffectsQuad, CWeaponProjectile.AddWeaponEffectsQuadByTable,
        CWeaponProjectile.effectsQuadTable, CWeaponProjectile.readProgress]
    · simp [CWeaponProjectile.AddWeaponEffectsQuad, CWeaponProjectile.AddWeaponEffectsQuadByTable,
        CWeaponProjectile.effectsQuadTable, CWeaponProjectile.readProgress]
    · simp [CWeaponProjectile.AddWeaponEffectsQuad, CWeaponProjectile.AddWeaponEffectsQuadByTable]
  · intro hle i src hsrc
    unfold CWeaponProjectile.effectsQuadTable at hsrc
    split at hsrc
    · exact absurd hsrc (by simp)
    · split at hsrc
      · simp only [Option.some.injEq, Prod.mk.injEq] at hsrc
        refine ⟨by omega, ?_⟩
        intro j hj
        rw [← hsrc.2] at hj
        exact absurd hj (by simp)
      · simp only [Option.some.injEq, Prod.mk.injEq] at hsrc
        refine ⟨by omega, ?_⟩
        intro j hj
        rw [← hsrc.2] at hj
        simp only [CWeaponProjectile.AnimProgressSource.extraAnimProgress.injEq] at hj
        omega
  · intro hle wd hwd hlen
    have h0 : ∃ a, (animParams wd)[0]? = some a :=
      ⟨(animParams wd)[0], List.getElem?_eq_getElem (by omega)⟩
    have h1 : ∃ a, (animParams wd)[1]? = some a :=
      ⟨(animParams wd)[1], List.getElem?_eq_getElem (by omega)⟩
    have h2 : ∃ a, (animParams wd)[2]? = some a :=
      ⟨(animParams wd)[2], List.getElem?_eq_getElem (by omega)⟩
    have h3 : ∃ a, (animParams wd)[3]? = some a :=
      ⟨(animParams wd)[3], List.getElem?_eq_getElem (by omega)⟩
    obtain ⟨a0, h0⟩ := h0
    obtain ⟨a1, h1⟩ := h1
    obtain ⟨a2, h2⟩ := h2
    obtain ⟨a3, h3⟩ := h3
    rcases texIdx with _ | _ | _ | _ | _ | n
    · simp [CWeaponProjectile.AddWeaponEffectsQuad, hwd]
    · simp [CWeaponProjectile.AddWeaponEffectsQuad, hwd, h0]
    · simp [CWeaponProjectile.AddWeaponEffectsQuad, hwd, h1,
        CWeaponProjectile.extraAnimProgressAt]
    · simp [CWeaponProjectile.AddWeaponEffectsQuad, hwd, h2,
        CWeaponProjectile.extraAnimProgressAt]
    · simp [CWeaponProjectile.AddWeaponEffectsQuad, hwd, h3,
        CWeaponProjectile.extraAnimProgressAt]
    · omega

/-- C11: `SetTargetObject(newTarget)` sets `target` to `newTarget`; with a
non-null `newTarget` it sets `targetPos` to the `pos` of the object pointed
to, with a null one it leaves `targetPos` as it is; `startPos`, `ttl`,
`bounces`, `targeted` and `bounced` are unchanged in both cases; and
`GetTargetObject()` afterwards returns `newTarget`. -/
theorem CWeaponProjectile.SetTargetObject_frame {α ι ω δ : Type}
    (p : CWeaponProjectile α ι ω δ) (posOf : ι → float3 α) (newTarget : Option ι) :
    (p.SetTargetObject posOf newTarget).target = newTarget
    ∧ (∀ t, newTarget = some t → (p.SetTargetObject posOf newTarget).targetPos = posOf t)
    ∧ (newTarget = none → (p.SetTargetObject posOf newTarget).targetPos = p.targetPos)
    ∧ (p.SetTargetObject posOf newTarget).startPos = p.startPos
    ∧ (p.SetTargetObject posOf newTarget).ttl = p.ttl
    ∧ (p.SetTargetObject posOf newTarget).bounces = p.bounces
    ∧ (p.SetTargetObject posOf newTarget).targeted = p.targeted
    ∧ (p.SetTargetObject posOf newTarget).bounced = p.bounced
    ∧ (p.SetTargetObject posOf newTarget).GetTargetObject = newTarget := by
  cases newTarget with
  | none =>
    exact ⟨rfl, fun t ht => absurd ht (by simp), fun _ => rfl, rfl, rfl, rfl, rfl, rfl, rfl⟩
  | some t0 =>
    refine ⟨rfl, ?_, fun hn => absurd hn (by simp), rfl, rfl, rfl, rfl, rfl, rfl⟩
    intro t ht
    have htt : t0 = t := Option.some.inj ht
    rw [← htt]
    rfl

/-- C12: after `SetLastAttackedPiece(p, f)` the call `GetLastAttackedPiece(g)`
returns `p` when `g == f` and `NULL` when `g != f`: a piece recorded in one
frame is not reported for a query about another frame. -/
theorem CUnit.GetLastAttackedPiece_SetLastAttackedPiece {α τ π : Type} (u : CUnit α τ π)
    (p : Option π) (f g : Int) :
    (g = f → (u.SetLastAttackedPiece p f).GetLastAttackedPiece g = p)
    ∧ (g ≠ f → (u.SetLastAttackedPiece p f).GetLastAttackedPiece g = none)
    ∧ (∀ q : π, (u.SetLastAttackedPiece p f).GetLastAttackedPiece g = some q →
        g = f ∧ p = some q) := by
  have hget : (u.SetLastAttackedPiece p f).GetLastAttackedPiece g
      = if f = g then p else none := rfl
  refine ⟨?_, ?_, ?_⟩
  · intro h
    rw [hget, if_pos h.symm]
  · intro h
    rw [hget, if_neg (fun e => h e.symm)]
  · intro q hq
    rw [hget] at hq
    by_cases e : f = g
    · rw [if_pos e] at hq
      exact ⟨e.symm, hq⟩
    · rw [if_neg e] at hq
      exact absurd hq (by simp)

/-! ### The claims at concrete inputs -/

/-- C1 at concrete inputs: at `(3, 4, 0)` from the start the computed squared
length and the computed `myrange * myrange` are both 25 for `myrange = -5`,
so the range has not been traveled, whatever `ttl` is; a range of 4 has been
traveled. -/
theorem CWeaponProjectile.TraveledRange_float_witness :
    (floatProjectile 3 4 0 (-5)).TraveledRange = false
    ∧ CWeaponProjectile.TraveledRange { floatProjectile 3 4 0 (-5) with ttl := 0 } = false
    ∧ (floatProjectile 3 4 0 4).TraveledRange = true :=
  ⟨(CWeaponProjectile.TraveledRange_float (floatProjectile 3 4 0 (-5))).2.2.1 (by decide),
   ((CWeaponProjectile.TraveledRange_float (floatProjectile 3 4 0 (-5))).2.2.2 0).trans
     ((CWeaponProjectile.TraveledRange_float (floatProjectile 3 4 0 (-5))).2.2.1 (by decide)),
   (CWeaponProjectile.TraveledRange_float (floatProjectile 3 4 0 4)).1.mpr (by decide)⟩

/-- C1 as stated fails in `float`.  At `pos = (257, 8190, 126)` from the
start with `myrange = 8195` the distance is exactly `|myrange|`
(`257² + 8190² + 126² = 8195²`), yet the computed squared length 67158032
exceeds the computed 67158024 and `TraveledRange()` is true.  At
`pos = (4096, 1, 0)` with `myrange = 4096` the squared length 16777217 exceeds
`myrange²` = 16777216, yet both are computed as 16777216 and
`TraveledRange()` is false. -/
theorem CWeaponProjectile.TraveledRange_exact_counterexample :
    ((floatProjectile 257 8190 126 8195).rangeInputsFinite = true
      ∧ (8195 : ℚ) * 8195 = (floatProjectile 257 8190 126 8195).exactSqDistance
      ∧ (8195 : ℚ) = |(floatProjectile 257 8190 126 8195).myrange.toRat|
      ∧ (floatProjectile 257 8190 126 8195).TraveledRange = true)
    ∧ ((floatProjectile 4096 1 0 4096).rangeInputsFinite = true
      ∧ (floatProjectile 4096 1 0 4096).exactSqDistance
          > (floatProjectile 4096 1 0 4096).myrange.toRat
            * (floatProjectile 4096 1 0 4096).myrange.toRat
      ∧ (floatProjectile 4096 1 0 4096).TraveledRange = false) := by
  refine ⟨⟨by decide, ?_, ?_, by decide⟩, ⟨by decide, ?_, by decide⟩⟩
  · norm_num [CWeaponProjectile.exactSqDistance, floatProjectile, float3.sub,
      float3.SqLength, float3.map, F32.toRat]
  · norm_num [floatProjectile, F32.toRat]
  · norm_num [CWeaponProjectile.exactSqDistance, floatProjectile, float3.sub,
      float3.SqLength, float3.map, F32.toRat]

/-- C3 at a concrete input: the projectile that hit unit 7 has applied damage
once and spawned one effect, and a collision with a feature, with nothing or
with unit 7 again leaves it as it is. -/
theorem ProjectileSim.Collision_idempotent_witness :
    ((sampleSim.Collision (CollisionTarget.unit 7) ⟨1, 0, 0⟩).damageApplied.length = 1
      ∧ (sampleSim.Collision (CollisionTarget.unit 7) ⟨1, 0, 0⟩).effectsSpawned.length = 1)
    ∧ (sampleSim.Collision (CollisionTarget.unit 7) ⟨1, 0, 0⟩).Collision
        (CollisionTarget.feature 3) ⟨0, 1, 0⟩
        = sampleSim.Collision (CollisionTarget.unit 7) ⟨1, 0, 0⟩
    ∧ (sampleSim.Collision (CollisionTarget.unit 7) ⟨1, 0, 0⟩).Collision
        (CollisionTarget.unit 7) ⟨1, 0, 0⟩
        = sampleSim.Collision (CollisionTarget.unit 7) ⟨1, 0, 0⟩ :=
  ⟨⟨rfl, rfl⟩,
   (ProjectileSim.Collision_idempotent sampleSim (CollisionTarget.unit 7)
      (CollisionTarget.feature 3) ⟨1, 0, 0⟩ ⟨0, 1, 0⟩).2.1 _
      (ProjectileSim.Collision_idempotent sampleSim (CollisionTarget.unit 7)
        (CollisionTarget.feature 3) ⟨1, 0, 0⟩ ⟨0, 1, 0⟩).1,
   (ProjectileSim.Collision_idempotent sampleSim (CollisionTarget.unit 7)
      (CollisionTarget.unit 7) ⟨1, 0, 0⟩ ⟨1, 0, 0⟩).2.2.1⟩

/-- C6 at a concrete input: `LOS_PREVLOS_MASK` is a single bit below `2 ^ 16`
that is part of `LOS_ALL_MASK_BITS`. -/
theorem LOS_bits_layout_witness :
    isSingleBit LOS_PREVLOS_MASK = true ∧ LOS_PREVLOS_MASK < 2 ^ 16
    ∧ LOS_PREVLOS_MASK &&& LOS_ALL_MASK_BITS ≠ 0 :=
  ⟨LOS_bits_layout.2.2.2.2.2.2.2.2.2.1 LOS_PREVLOS_MASK (by decide),
   LOS_bits_layout.2.2.2.2.2.2.2.2.2.2.1 LOS_PREVLOS_MASK (by decide),
   (LOS_bits_layout.2.2.2.2.2.2.1 LOS_PREVLOS_MASK (by decide)).mpr (by decide)⟩

/-- C7 at a concrete input: on `scriptCloak = 0x44`, setting or clearing
`SCRIPT_CLOAK_IGNORE_STUNNED` leaves `SCRIPT_CLOAK_IGNORE_CAPTURING` set. -/
theorem ScriptCloakBits.independent_witness :
    scriptCloakHas (scriptCloakSet 0x44 ScriptCloakBits.SCRIPT_CLOAK_IGNORE_STUNNED)
        ScriptCloakBits.SCRIPT_CLOAK_IGNORE_CAPTURING
      = scriptCloakHas 0x44 ScriptCloakBits.SCRIPT_CLOAK_IGNORE_CAPTURING
    ∧ scriptCloakHas (scriptCloakClear 0x44 ScriptCloakBits.SCRIPT_CLOAK_IGNORE_STUNNED)
        ScriptCloakBits.SCRIPT_CLOAK_IGNORE_CAPTURING
      = scriptCloakHas 0x44 ScriptCloakBits.SCRIPT_CLOAK_IGNORE_CAPTURING :=
  ScriptCloakBits.independent.2.2.2.2.1 0x44 ScriptCloakBits.SCRIPT_CLOAK_IGNORE_STUNNED
    ScriptCloakBits.SCRIPT_CLOAK_IGNORE_CAPTURING (by decide)

/-- C8 at a concrete input: with four animation parameters the specialisation
for `texIdx = 4` goes through, and the table has `(3, extraAnimProgress[2])`
there, within bounds. -/
theorem CWeaponProjectile.AddWeaponEffectsQuad_table_witness :
    (sampleProjectile.AddWeaponEffectsQuad (fun _ => [10, 11, 12, 13])
        (fun (_ _ _ _ : Nat) (a : Option (Nat × Int)) => a) 4 0 0 0 0).isSome = true
    ∧ (3 ≤ 3 ∧ ∀ j, CWeaponProjectile.AnimProgressSource.extraAnimProgress 2
        = CWeaponProjectile.AnimProgressSource.extraAnimProgress j → j < 3) :=
  ⟨(CWeaponProjectile.AddWeaponEffectsQuad_table (fun _ => [10, 11, 12, 13])
      (fun (_ _ _ _ : Nat) (a : Option (Nat × Int)) => a) 4 sampleProjectile 0 0 0 0).2.2
      (by decide) 0 rfl (by decide),
   (CWeaponProjectile.AddWeaponEffectsQuad_table (fun _ => [10, 11, 12, 13])
      (fun (_ _ _ _ : Nat) (a : Option (Nat × Int)) => a) 4 sampleProjectile 0 0 0 0).2.1
      (by decide) 3 (CWeaponProjectile.AnimProgressSource.extraAnimProgress 2) rfl⟩

/-- C11 at concrete inputs: retargeting the sample projectile to object 7 at
`(1, 2, 3)` moves `targetPos` there, and retargeting it to null keeps
`targetPos = (9, 9, 0)`. -/
theorem CWeaponProjectile.SetTargetObject_frame_witness :
    (sampleProjectile.SetTargetObject (fun _ => ⟨1, 2, 3⟩) (some 7)).targetPos = ⟨1, 2, 3⟩
    ∧ (sampleProjectile.SetTargetObject (fun _ => ⟨1, 2, 3⟩) none).targetPos = ⟨9, 9, 0⟩
    ∧ (sampleProjectile.SetTargetObject (fun _ => ⟨1, 2, 3⟩) (some 7)).GetTargetObject
        = some 7 :=
  ⟨(CWeaponProjectile.SetTargetObject_frame sampleProjectile (fun _ => ⟨1, 2, 3⟩)
      (some 7)).2.1 7 rfl,
   (CWeaponProjectile.SetTargetObject_frame sampleProjectile (fun _ => ⟨1, 2, 3⟩)
      none).2.2.1 rfl,
   (CWeaponProjectile.SetTargetObject_frame sampleProjectile (fun _ => ⟨1, 2, 3⟩)
      (some 7)).2.2.2.2.2.2.2.2⟩

/-- C12 at concrete inputs: piece 4 recorded in frame 30 is returned for
frame 30 and not for frame 31. -/
theorem CUnit.GetLastAttackedPiece_SetLastAttackedPiece_witness :
    (sampleUnit.SetLastAttackedPiece (some 4) 30).GetLastAttackedPiece 30 = some 4
    ∧ (sampleUnit.SetLastAttackedPiece (some 4) 30).GetLastAttackedPiece 31 = none :=
  ⟨(CUnit.GetLastAttackedPiece_SetLastAttackedPiece sampleUnit (some 4) 30 30).1 rfl,
   (CUnit.GetLastAttackedPiece_SetLastAttackedPiece sampleUnit (some 4) 30 31).2.1
     (by decide)⟩

end Spring
